import Mathlib

/-!
Shallow embedding of the color-depth conversion core of the `retroimg`
repository (`src/color.rs` and `src/color/cga.rs`), together with proofs
about it.

Machine integers are modelled as `Nat`/`Int`: every `u8` channel value in
the Rust code is produced from a `u8`, so it lies below 256, and the
widening conversions to `i32`/`i64` in the source never overflow for such
values; the one place where two's-complement wrap-around is observable
(`(r1 - r2) as u64` in `color_diff_l2`) is modelled explicitly with
`% 2 ^ 64`. Rust panics (`assert_eq!`, `unwrap`, out-of-bounds indexing)
are modelled by `Option`, with `none` standing for an aborted call.
-/

/-- RGBA color with 8-bit channels (`exoquant::Color`); channel values are
naturals below 256. -/
structure Color where
  r : Nat
  g : Nat
  b : Nat
  a : Nat
deriving DecidableEq, Repr

/-- Enumeration of supported color distance algorithms for loss
calculation (`LossAlgorithm` in `src/color.rs`). -/
inductive LossAlgorithm where
  /-- L2, Euclidean distance; carries the `#[default]` attribute. -/
  | L2 : LossAlgorithm
  /-- L1, Manhattan distance -/
  | L1 : LossAlgorithm
deriving DecidableEq, Repr

/-- The `Default` derive on `LossAlgorithm` selects the variant marked
`#[default]`, which is `L2`. -/
def LossAlgorithm.default : LossAlgorithm := LossAlgorithm.L2

/-- Options for transforming an image to a different color depth
(`ColorOptions` in `src/color.rs`). -/
structure ColorOptions where
  /-- Maximum number of colors to admit; `none` means no limit. -/
  num_colors : Option Nat
  /-- The distance algorithm used for the loss between colors. -/
  loss : LossAlgorithm
deriving DecidableEq, Repr

/-- The `Default` derive on `ColorOptions`: `num_colors` defaults to
`None` and `loss` to `LossAlgorithm::default()`. -/
def ColorOptions.default : ColorOptions :=
  { num_colors := none, loss := LossAlgorithm.default }

/-- `u64::MAX`, the saturation bound of the `u64` arithmetic used in
`color_diff_l2`. -/
def U64_MAX : Nat := 2 ^ 64 - 1

/-- The Rust cast `v as u64` applied to an `i64` value: two's-complement
wrap-around into `[0, 2^64)`. -/
def int_as_u64 (v : Int) : Nat := (v % (2 ^ 64 : Int)).toNat

/-- `u64::saturating_mul`. -/
def saturating_mul (x y : Nat) : Nat := min (x * y) U64_MAX

/-- `u64::saturating_add`. -/
def saturating_add (x y : Nat) : Nat := min (x + y) U64_MAX

/-- `color_diff_l1` (src/color.rs:86): sum of absolute per-channel
differences, computed in `i64`. -/
def color_diff_l1 (c1 c2 : Color) : Nat :=
  ((c1.r : Int) - (c2.r : Int)).natAbs + ((c1.g : Int) - (c2.g : Int)).natAbs
    + ((c1.b : Int) - (c2.b : Int)).natAbs

/-- `color_diff_l2` (src/color.rs:106): each per-channel difference is
computed in `i64`, cast to `u64` (wrapping for negative differences),
squared and summed with saturating arithmetic, then the integer square
root is taken. -/
def color_diff_l2 (c1 c2 : Color) : Nat :=
  let dr := int_as_u64 ((c1.r : Int) - (c2.r : Int))
  let dg := int_as_u64 ((c1.g : Int) - (c2.g : Int))
  let db := int_as_u64 ((c1.b : Int) - (c2.b : Int))
  Nat.sqrt (saturating_add (saturating_add (saturating_mul dr dr) (saturating_mul dg dg))
    (saturating_mul db db))

/-- `LossAlgorithm::color_diff` (src/color.rs:64). -/
def LossAlgorithm.color_diff : LossAlgorithm → Color → Color → Nat
  | LossAlgorithm.L1, c1, c2 => color_diff_l1 c1 c2
  | LossAlgorithm.L2, c1, c2 => color_diff_l2 c1 c2

/-- `LossAlgorithm::image_diff` (src/color.rs:77): `assert_eq!` on the
lengths (panic modelled as `none`), then the sum of the zipped per-pixel
differences. -/
def LossAlgorithm.image_diff (alg : LossAlgorithm) (a b : List Color) : Option Nat :=
  if a.length = b.length then
    some (((a.zip b).map fun q => alg.color_diff q.1 q.2).sum)
  else
    none

/-- Insertion of a natural into a sorted list, used to model
`sort_unstable` on a vector of `u8` channel values. -/
def sorted_insert (x : Nat) : List Nat → List Nat
  | [] => [x]
  | y :: ys => if x ≤ y then x :: y :: ys else y :: sorted_insert x ys

/-- Ascending sort of a list of channel values, modelling
`Vec::sort_unstable` (stability is irrelevant on plain numbers). -/
def sort_channel : List Nat → List Nat
  | [] => []
  | x :: xs => sorted_insert x (sort_channel xs)

/-- `color_median` (src/color.rs:133). The three channel vectors are
collected and sorted, but all three resulting components are read from
`colors_r`, the sorted red channel (the source indexes `colors_r` with
`colors_g.len() / 2` and `colors_b.len() / 2` for `g` and `b`).
Out-of-bounds indexing on an empty buffer is a panic, modelled as
`none`. -/
def color_median (colors : List Color) : Option Color :=
  let colors_r := sort_channel (colors.map fun c => c.r)
  let colors_g := sort_channel (colors.map fun c => c.g)
  let colors_b := sort_channel (colors.map fun c => c.b)
  match colors_r.get? (colors_r.length / 2), colors_r.get? (colors_g.length / 2),
      colors_r.get? (colors_b.length / 2) with
  | some r, some g, some b => some { r := r, g := g, b := b, a := 255 }
  | _, _, _ => none

/-- An `image::RgbImage`: a width and the row-major pixel triples yielded
by `image.pixels()`. -/
structure RgbImage where
  width : Nat
  pixels : List (Nat × Nat × Nat)

/-- The expression `image.pixels().map(|&Rgb([r, g, b])| Color { r, g, b, a: 255 })`
that every `convert_image_with_loss` implementation uses to obtain its
`original` buffer. -/
def RgbImage.toColors (image : RgbImage) : List Color :=
  image.pixels.map fun p => { r := p.1, g := p.2.1, b := p.2.2, a := 255 }

/-- Squared RGB distance in exact integer arithmetic, the
nearest-palette-entry key of the spec-modelled remapper. -/
def dist_sq (c q : Color) : Int :=
  let rd := (c.r : Int) - (q.r : Int)
  let gd := (c.g : Int) - (q.g : Int)
  let bd := (c.b : Int) - (q.b : Int)
  rd * rd + gd * gd + bd * bd

/-- Index of the first minimum of a list of keys (0 on the empty list). -/
def idx_of_min : List Int → Nat
  | [] => 0
  | x :: xs =>
    match xs with
    | [] => 0
    | y :: ys =>
      let j := idx_of_min (y :: ys)
      if x ≤ (y :: ys).getD j 0 then 0 else j + 1

/-- Modelled from the spec: the palette construction that `build_palette`
(src/color.rs:421) delegates to the external `exoquant` crate
(`Histogram`, `Quantizer`, `KMeans`), whose clustering code is not part
of this repository. Spec section 4.2: the builder takes a pixel buffer
and a target count and returns a palette of at most that many colors
drawn from the buffer. -/
def build_palette (pixels : List Color) (num_colors : Nat) : List Color :=
  pixels.dedup.take num_colors

/-- Modelled from the spec: the `Remapper` with `FloydSteinberg` ditherer
from the external `exoquant` crate used by every capped conversion path,
whose code is not part of this repository. Spec section 4.3: one palette
index per pixel, each chosen as the nearest palette entry; the
error-diffusion adjustment is abstracted away. -/
def remap (palette : List Color) (width : Nat) (pixels : List Color) : List Nat :=
  pixels.map fun p => idx_of_min (palette.map fun q => dist_sq p q)

/-- `Iterator::min_by_key` over a non-empty iterator, given as head and
tail: when several elements have an equally minimal key, the first one is
returned, so the accumulator is replaced only on a strictly smaller
key. -/
def min_by_key_first {α : Type} (key : α → Int) : α → List α → α
  | x, [] => x
  | x, y :: ys =>
    if key y < key x then min_by_key_first key y ys else min_by_key_first key x ys

/-- The squared-Euclidean key `rd * rd + rg * rg + rb * rb` computed in
`i32` by the palette `min_by_key` searches (src/color.rs:367 and
src/color.rs:466); exact for 8-bit channels. -/
def palette_key (pixel : Color) (t : Nat × Nat × Nat) : Int :=
  let rd := (pixel.r : Int) - (t.1 : Int)
  let rg := (pixel.g : Int) - (t.2.1 : Int)
  let rb := (pixel.b : Int) - (t.2.2 : Int)
  rd * rd + rg * rg + rb * rb

/-- `FixedPalette::convert_color` (src/color.rs:355): nearest palette
triple by squared Euclidean distance, ties to the first entry; the
`unwrap` on an empty palette is a panic, modelled as `none`. -/
def FixedPalette.convert_color (palette : List (Nat × Nat × Nat)) (pixel : Color) :
    Option Color :=
  match palette with
  | [] => none
  | t :: ts =>
    let q := min_by_key_first (palette_key pixel) t ts
    some { r := q.1, g := q.2.1, b := q.2.2, a := 255 }

/-- `FixedPalette::convert_image_with_loss` (src/color.rs:383). With a
color cap the palette built from the original pixels is snapped
entry-wise into the fixed palette and the image is remapped against it;
without a cap the original buffer is returned as is (`original.clone()`). -/
def FixedPalette.convert_image_with_loss (palette : List (Nat × Nat × Nat))
    (image : RgbImage) (options : ColorOptions) : Option (List Color × Nat) :=
  let original := image.toColors
  let converted? : Option (List Color) :=
    match options.num_colors with
    | some num_colors =>
      ((build_palette original num_colors).mapM
          (FixedPalette.convert_color palette)).map fun reduced =>
        (remap reduced image.width original).map fun i =>
          reduced.getD i { r := 0, g := 0, b := 0, a := 255 }
    | none => some original
  converted?.bind fun converted_pixels =>
    (options.loss.image_diff original converted_pixels).map fun loss =>
      (converted_pixels, loss)

/-- `MappingColorDepth::convert_image_with_loss` (src/color.rs:235) for a
mapper with per-pixel conversion function `m`. Every pixel is mapped
through `m`; with a color cap the palette built from the mapped pixels is
itself mapped through `m` and the mapped pixels are remapped against it. -/
def MappingColorDepth.convert_image_with_loss (m : Color → Color)
    (image : RgbImage) (options : ColorOptions) : Option (List Color × Nat) :=
  let original := image.toColors
  let pixels := image.toColors.map m
  let converted? : Option (List Color) :=
    match options.num_colors with
    | some num_colors =>
      let reduced := (build_palette pixels num_colors).map m
      some ((remap reduced image.width pixels).map fun i =>
        reduced.getD i { r := 0, g := 0, b := 0, a := 255 })
    | none => some pixels
  converted?.bind fun converted_pixels =>
    (options.loss.image_diff original converted_pixels).map fun loss =>
      (converted_pixels, loss)

/-- `TrueColor24BitMapper::convert_color` (src/color.rs:285): identity. -/
def TrueColor24BitMapper.convert_color (pixel : Color) : Color := pixel

/-- `TrueColor24Bit = MappingColorDepth<TrueColor24BitMapper>`. -/
def TrueColor24Bit.convert_image_with_loss (image : RgbImage) (options : ColorOptions) :
    Option (List Color × Nat) :=
  MappingColorDepth.convert_image_with_loss TrueColor24BitMapper.convert_color image options

/-- `Vga18BitMapper::convert_color` (src/color.rs:302). -/
def Vga18BitMapper.convert_color (pixel : Color) : Color :=
  { r := (pixel.r &&& 0xFC) ||| (pixel.r >>> 6)
    g := (pixel.g &&& 0xFC) ||| (pixel.g >>> 6)
    b := (pixel.b &&& 0xFC) ||| (pixel.b >>> 6)
    a := pixel.a }

/-- `Vga16BitMapper::convert_color` (src/color.rs:317). -/
def Vga16BitMapper.convert_color (pixel : Color) : Color :=
  { r := (pixel.r &&& 0xF8) ||| (pixel.r >>> 5)
    g := (pixel.g &&& 0xFC) ||| (pixel.g >>> 6)
    b := (pixel.b &&& 0xF8) ||| (pixel.b >>> 5)
    a := pixel.a }

/-- `BackForePalette::convert_color` (src/color.rs:452): same
nearest-triple search as `FixedPalette::convert_color`. -/
def BackForePalette.convert_color (pixel : Color) (palette : List (Nat × Nat × Nat)) :
    Option Color :=
  match palette with
  | [] => none
  | t :: ts =>
    let q := min_by_key_first (palette_key pixel) t ts
    some { r := q.1, g := q.2.1, b := q.2.2, a := 255 }

/-- `BackForePalette::convert_color_back` (src/color.rs:477): snap into
the background palette `B`. -/
def BackForePalette.convert_color_back (B : List (Nat × Nat × Nat)) (pixel : Color) :
    Option Color :=
  BackForePalette.convert_color pixel B

/-- `BackForePalette::background_color` (src/color.rs:482): the median
color of the image buffer. -/
def BackForePalette.background_color (image : RgbImage) : Option Color :=
  color_median image.toColors

/-- `BackForePalette::convert_image_with_loss` (src/color.rs:500): the
median color is snapped into the background palette, appended to the
foreground triples, and the body of `FixedPalette::convert_image_with_loss`
is replayed with that augmented palette. -/
def BackForePalette.convert_image_with_loss (B F : List (Nat × Nat × Nat))
    (image : RgbImage) (options : ColorOptions) : Option (List Color × Nat) :=
  (BackForePalette.background_color image).bind fun bkg0 =>
  (BackForePalette.convert_color_back B bkg0).bind fun bkg_color =>
  let fixed := F ++ [(bkg_color.r, bkg_color.g, bkg_color.b)]
  let original := image.toColors
  let converted? : Option (List Color) :=
    match options.num_colors with
    | some num_colors =>
      ((build_palette original num_colors).mapM
          (FixedPalette.convert_color fixed)).map fun reduced =>
        (remap reduced image.width original).map fun i =>
          reduced.getD i { r := 0, g := 0, b := 0, a := 255 }
    | none => some original
  converted?.bind fun converted_pixels =>
    (options.loss.image_diff original converted_pixels).map fun loss =>
      (converted_pixels, loss)

/-- The fold performed by `min_by_key(|(_pixels, loss)| *loss)` in
`BestPalette::convert_image_with_loss`, on a non-empty list of candidate
results: the running minimum is replaced only on a strictly smaller loss,
so ties keep the earliest candidate. -/
def min_by_loss_aux {α : Type} : α × Nat → List (α × Nat) → α × Nat
  | x, [] => x
  | x, y :: ys => min_by_loss_aux (if y.2 < x.2 then y else x) ys

/-- Running every candidate of a `BestPalette` in order against the same
image and options; a panic of any candidate (`none`) aborts the call. -/
def convert_all (cands : List (RgbImage → ColorOptions → Option (List Color × Nat)))
    (image : RgbImage) (options : ColorOptions) : Option (List (List Color × Nat)) :=
  match cands with
  | [] => some []
  | c :: cs =>
    (c image options).bind fun res =>
      (convert_all cs image options).map fun rest => res :: rest

/-- `BestPalette::convert_image_with_loss` (src/color.rs:557): every
candidate is converted, the result with the minimal loss is returned, and
the `unwrap` of the empty minimum is a panic, modelled as `none`. -/
def BestPalette.convert_image_with_loss
    (cands : List (RgbImage → ColorOptions → Option (List Color × Nat)))
    (image : RgbImage) (options : ColorOptions) : Option (List Color × Nat) :=
  (convert_all cands image options).bind fun results =>
    match results with
    | [] => none
    | x :: xs => some (min_by_loss_aux x xs)

/-- `BW_1BIT` (src/color.rs:585). -/
def BW_1BIT : List (Nat × Nat × Nat) := [(0, 0, 0), (0xFF, 0xFF, 0xFF)]

/-! ## Supporting lemmas -/



theorem color_diff_l2_def (c1 c2 : Color) :
    color_diff_l2 c1 c2 = Nat.sqrt (saturating_add (saturating_add
      (saturating_mul (int_as_u64 ((c1.r : Int) - (c2.r : Int)))
        (int_as_u64 ((c1.r : Int) - (c2.r : Int))))
      (saturating_mul (int_as_u64 ((c1.g : Int) - (c2.g : Int)))
        (int_as_u64 ((c1.g : Int) - (c2.g : Int)))))
      (saturating_mul (int_as_u64 ((c1.b : Int) - (c2.b : Int)))
        (int_as_u64 ((c1.b : Int) - (c2.b : Int))))) := rfl

/-- The L1 metric is symmetric: the Manhattan distance takes absolute
values before summing. -/
theorem color_diff_l1_comm (c1 c2 : Color) : color_diff_l1 c1 c2 = color_diff_l1 c2 c1 := by
  unfold color_diff_l1
  omega

/-- Each distance metric is zero on a pair of equal colors. -/
theorem color_diff_self (alg : LossAlgorithm) (c : Color) : alg.color_diff c c = 0 := by
  cases alg with
  | L1 => simp [LossAlgorithm.color_diff, color_diff_l1]
  | L2 =>
    simp [LossAlgorithm.color_diff, color_diff_l2, int_as_u64, saturating_mul, saturating_add,
      Nat.zero_min, Nat.sqrt_zero]

/-- `image_diff` on two buffers of equal length is the sum of the zipped
per-pixel differences. -/
theorem image_diff_of_length_eq (alg : LossAlgorithm) (a b : List Color)
    (h : a.length = b.length) :
    alg.image_diff a b = some (((a.zip b).map fun q => alg.color_diff q.1 q.2).sum) := by
  simp [LossAlgorithm.image_diff, h]

/-- `image_diff` of a buffer with itself is zero. -/
theorem image_diff_self (alg : LossAlgorithm) (l : List Color) :
    alg.image_diff l l = some 0 := by
  rw [image_diff_of_length_eq alg l l rfl]
  congr 1
  induction l with
  | nil => rfl
  | cons c l ih => simp [ih, color_diff_self]

/-! ## Claim theorems -/

/-- Claim C1: the claim fails on the code, and the code contradicts its
own intent. With the monochrome palette, no color cap and a single pixel
`(1, 2, 3)`, `FixedPalette::convert_image_with_loss` returns the pixel
unchanged with loss 0; the returned triple is not an entry of the
palette, even though `FixedPalette::convert_color` would have snapped it
to black. -/
theorem fixed_palette_uncapped_pixel_not_in_palette :
    FixedPalette.convert_image_with_loss BW_1BIT ⟨1, [(1, 2, 3)]⟩ ⟨none, LossAlgorithm.L1⟩
        = some ([⟨1, 2, 3, 255⟩], 0)
      ∧ ¬ ((1, 2, 3) ∈ BW_1BIT)
      ∧ FixedPalette.convert_color BW_1BIT ⟨1, 2, 3, 255⟩ = some ⟨0, 0, 0, 255⟩ := by
  decide

/-- Claim C2 counterexample: with a color cap of 1 on a two-pixel
black-and-white image, `TrueColor24Bit` does not return the input
unchanged and the loss is 765, not 0 (quantization stage modelled from
the spec). -/
theorem trueColor_capped_not_identity :
    TrueColor24Bit.convert_image_with_loss ⟨2, [(0, 0, 0), (255, 255, 255)]⟩
        ⟨some 1, LossAlgorithm.L1⟩ = some ([⟨0, 0, 0, 255⟩, ⟨0, 0, 0, 255⟩], 765)
      ∧ TrueColor24Bit.convert_image_with_loss ⟨2, [(0, 0, 0), (255, 255, 255)]⟩
          ⟨some 1, LossAlgorithm.L1⟩
        ≠ some ((⟨2, [(0, 0, 0), (255, 255, 255)]⟩ : RgbImage).toColors, 0) := by
  decide

/-- Claim C2 (amended): whenever `options.num_colors` is `None`,
`TrueColor24Bit::convert_image_with_loss` returns the input pixel buffer
unchanged with loss 0, for any image and either loss metric. -/
theorem trueColor_uncapped_identity (image : RgbImage) (opts : ColorOptions)
    (h : opts.num_colors = none) :
    TrueColor24Bit.convert_image_with_loss image opts = some (image.toColors, 0) := by
  unfold TrueColor24Bit.convert_image_with_loss MappingColorDepth.convert_image_with_loss
  rw [h]
  show (LossAlgorithm.image_diff opts.loss image.toColors
      (image.toColors.map TrueColor24BitMapper.convert_color)).map _ = _
  have hm : image.toColors.map TrueColor24BitMapper.convert_color = image.toColors :=
    List.map_id image.toColors
  rw [hm, image_diff_self]
  rfl

/-- Witness for the amended claim C2 at a concrete red 2-by-2 image. -/
theorem trueColor_uncapped_identity_witness :
    TrueColor24Bit.convert_image_with_loss
        ⟨2, [(255, 0, 0), (255, 0, 0), (255, 0, 0), (255, 0, 0)]⟩
        ⟨none, LossAlgorithm.L2⟩
      = some ([⟨255, 0, 0, 255⟩, ⟨255, 0, 0, 255⟩, ⟨255, 0, 0, 255⟩, ⟨255, 0, 0, 255⟩], 0) :=
  trueColor_uncapped_identity
    ⟨2, [(255, 0, 0), (255, 0, 0), (255, 0, 0), (255, 0, 0)]⟩ ⟨none, LossAlgorithm.L2⟩ rfl

/-- Claim C3: the claim fails on the code. The L2 path casts each signed
channel difference to `u64` before squaring, so a negative difference
wraps to a huge value and the saturating square clamps at `u64::MAX`:
`color_diff(L2, (1,0,0), (0,0,0)) = 1` but
`color_diff(L2, (0,0,0), (1,0,0)) = 4294967295`, refuting symmetry. -/
theorem color_diff_l2_asymmetric_at_unit :
    LossAlgorithm.color_diff LossAlgorithm.L2 ⟨1, 0, 0, 255⟩ ⟨0, 0, 0, 255⟩ = 1
      ∧ LossAlgorithm.color_diff LossAlgorithm.L2 ⟨0, 0, 0, 255⟩ ⟨1, 0, 0, 255⟩
        = 4294967295 := by
  constructor
  · rw [show LossAlgorithm.color_diff LossAlgorithm.L2 ⟨1, 0, 0, 255⟩ ⟨0, 0, 0, 255⟩
        = color_diff_l2 ⟨1, 0, 0, 255⟩ ⟨0, 0, 0, 255⟩ from rfl, color_diff_l2_def]
    symm
    rw [Nat.eq_sqrt]
    exact ⟨by decide, by decide⟩
  · rw [show LossAlgorithm.color_diff LossAlgorithm.L2 ⟨0, 0, 0, 255⟩ ⟨1, 0, 0, 255⟩
        = color_diff_l2 ⟨0, 0, 0, 255⟩ ⟨1, 0, 0, 255⟩ from rfl, color_diff_l2_def]
    symm
    rw [Nat.eq_sqrt]
    exact ⟨by decide, by decide⟩

/-- Claim C4: the claim fails on the code. For the single-pixel image
`(10, 20, 30)` the background color comes out as `(10, 10, 10)`: all
three components are read from the sorted red channel vector, not from
the independent per-channel medians `(10, 20, 30)`. -/
theorem background_color_uses_red_for_all_channels :
    BackForePalette.background_color ⟨1, [(10, 20, 30)]⟩ = some ⟨10, 10, 10, 255⟩
      ∧ color_median [⟨10, 20, 30, 255⟩] ≠ some ⟨10, 20, 30, 255⟩ := by
  decide

/-- Claim C5 counterexample: the `#[default]` variant of `LossAlgorithm`
is not `L1`, and neither is the `loss` field of the default
`ColorOptions`. -/
theorem loss_default_not_l1 :
    LossAlgorithm.default ≠ LossAlgorithm.L1
      ∧ ColorOptions.default.loss ≠ LossAlgorithm.L1 := by
  decide

/-- Claim C5 (amended): the default `LossAlgorithm`, and hence the `loss`
field of `ColorOptions::default()`, is `L2`. -/
theorem loss_default_is_l2 :
    LossAlgorithm.default = LossAlgorithm.L2
      ∧ ColorOptions.default.loss = LossAlgorithm.L2 := by
  decide

/-- Claim C9: `image_diff` aborts (panics) exactly when the two buffers
have different lengths, and on equal lengths returns the elementwise sum
of the per-pixel `color_diff` values. -/
theorem image_diff_requires_equal_lengths (alg : LossAlgorithm) (a b : List Color) :
    (a.length ≠ b.length → alg.image_diff a b = none)
      ∧ (a.length = b.length →
          alg.image_diff a b
            = some (((a.zip b).map fun q => alg.color_diff q.1 q.2).sum)) := by
  constructor
  · intro h
    simp [LossAlgorithm.image_diff, h]
  · intro h
    exact image_diff_of_length_eq alg a b h

/-- Witness for claim C9: a one-pixel buffer against an empty buffer
aborts; two equal-length one-pixel buffers produce the single pixel
distance. -/
theorem image_diff_requires_equal_lengths_witness :
    LossAlgorithm.image_diff LossAlgorithm.L1 [⟨1, 2, 3, 255⟩] [] = none
      ∧ LossAlgorithm.image_diff LossAlgorithm.L1 [⟨1, 2, 3, 255⟩] [⟨1, 2, 4, 255⟩]
        = some 1 := by
  constructor
  · exact (image_diff_requires_equal_lengths LossAlgorithm.L1 [⟨1, 2, 3, 255⟩] []).1
      (by decide)
  · rw [(image_diff_requires_equal_lengths LossAlgorithm.L1 [⟨1, 2, 3, 255⟩]
      [⟨1, 2, 4, 255⟩]).2 rfl]
    decide

/-- Claim C7: `BackForePalette::convert_image_with_loss` coincides with
`FixedPalette::convert_image_with_loss` on the augmented palette obtained
by appending the background-snapped median color to the foreground
triples, for every image and options (given that the median and its snap
exist, i.e. the call does not panic while computing them). -/
theorem back_fore_equals_fixed_augmented (B F : List (Nat × Nat × Nat))
    (image : RgbImage) (options : ColorOptions) (bkg0 bkg : Color)
    (h0 : BackForePalette.background_color image = some bkg0)
    (h1 : BackForePalette.convert_color_back B bkg0 = some bkg) :
    BackForePalette.convert_image_with_loss B F image options
      = FixedPalette.convert_image_with_loss (F ++ [(bkg.r, bkg.g, bkg.b)]) image options := by
  unfold BackForePalette.convert_image_with_loss
  rw [h0, Option.some_bind, h1, Option.some_bind]
  rfl

/-- Witness for claim C7 at a concrete background palette, foreground
palette and one-pixel image. -/
theorem back_fore_equals_fixed_augmented_witness :
    BackForePalette.convert_image_with_loss [(0, 0, 0)] [(255, 255, 255)]
        ⟨1, [(10, 20, 30)]⟩ ⟨none, LossAlgorithm.L1⟩
      = FixedPalette.convert_image_with_loss ([(255, 255, 255)] ++ [(0, 0, 0)])
          ⟨1, [(10, 20, 30)]⟩ ⟨none, LossAlgorithm.L1⟩ :=
  back_fore_equals_fixed_augmented [(0, 0, 0)] [(255, 255, 255)]
    ⟨1, [(10, 20, 30)]⟩ ⟨none, LossAlgorithm.L1⟩ ⟨10, 10, 10, 255⟩ ⟨0, 0, 0, 255⟩
    (by decide) (by decide)

/-- Claim C10: `BestPalette::convert_image_with_loss` panics on an empty
candidate list (no error value is returned), and succeeds whenever the
candidate list is non-empty and every candidate succeeds. -/
theorem best_palette_requires_candidates :
    (∀ (image : RgbImage) (options : ColorOptions),
        BestPalette.convert_image_with_loss [] image options = none)
      ∧ (∀ (cands : List (RgbImage → ColorOptions → Option (List Color × Nat)))
          (image : RgbImage) (options : ColorOptions) (r : List Color × Nat)
          (rs : List (List Color × Nat)),
          convert_all cands image options = some (r :: rs) →
            (BestPalette.convert_image_with_loss cands image options).isSome = true) := by
  constructor
  · intro image options
    rfl
  · intro cands image options r rs h
    unfold BestPalette.convert_image_with_loss
    rw [h, Option.some_bind]
    rfl

/-- Witness for claim C10: a singleton candidate list with a successful
candidate yields a result. -/
theorem best_palette_requires_candidates_witness :
    (BestPalette.convert_image_with_loss [fun _ _ => some ([⟨0, 0, 0, 255⟩], 0)]
        ⟨1, [(0, 0, 0)]⟩ ⟨none, LossAlgorithm.L1⟩).isSome = true :=
  best_palette_requires_candidates.2 [fun _ _ => some ([⟨0, 0, 0, 255⟩], 0)]
    ⟨1, [(0, 0, 0)]⟩ ⟨none, LossAlgorithm.L1⟩ ([⟨0, 0, 0, 255⟩], 0) [] rfl

theorem min_by_loss_aux_cons {α : Type} (x y : α × Nat) (ys : List (α × Nat)) :
    min_by_loss_aux x (y :: ys) = min_by_loss_aux (if y.2 < x.2 then y else x) ys := rfl

/-- The `min_by_key` fold returns the first element of minimal loss: the
input decomposes around the result, every element strictly before it has
a strictly larger loss, and no element has a smaller loss. -/
theorem min_by_loss_aux_first {α : Type} (ys : List (α × Nat)) (x : α × Nat) :
    ∃ pre post, x :: ys = pre ++ min_by_loss_aux x ys :: post
      ∧ (∀ y ∈ pre, (min_by_loss_aux x ys).2 < y.2)
      ∧ (∀ y ∈ x :: ys, (min_by_loss_aux x ys).2 ≤ y.2) := by
  induction ys generalizing x with
  | nil =>
    refine ⟨[], [], rfl, by simp, ?_⟩
    intro z hz
    rw [List.mem_singleton.mp hz]
    exact Nat.le_refl _
  | cons y ys ih =>
    rw [min_by_loss_aux_cons]
    by_cases hxy : y.2 < x.2
    · rw [if_pos hxy]
      obtain ⟨pre, post, hsplit, hpre, hall⟩ := ih y
      refine ⟨x :: pre, post, ?_, ?_, ?_⟩
      · rw [List.cons_append, ← hsplit]
      · intro z hz
        rcases List.mem_cons.mp hz with hz | hz
        · rw [hz]
          exact Nat.lt_of_le_of_lt (hall y (List.mem_cons_self y ys)) hxy
        · exact hpre z hz
      · intro z hz
        rcases List.mem_cons.mp hz with hz | hz
        · rw [hz]
          exact Nat.le_of_lt (Nat.lt_of_le_of_lt (hall y (List.mem_cons_self y ys)) hxy)
        · exact hall z hz
    · rw [if_neg hxy]
      have hxle : x.2 ≤ y.2 := Nat.le_of_not_lt hxy
      obtain ⟨pre, post, hsplit, hpre, hall⟩ := ih x
      cases pre with
      | nil =>
        rw [List.nil_append] at hsplit
        injection hsplit with h1 h2
        subst h2
        refine ⟨[], y :: ys, ?_, by simp, ?_⟩
        · rw [List.nil_append, ← h1]
        · intro z hz
          rcases List.mem_cons.mp hz with hz | hz
          · rw [hz, ← h1]
          · rcases List.mem_cons.mp hz with hz | hz
            · rw [hz, ← h1]
              exact hxle
            · exact hall z (List.mem_cons_of_mem x hz)
      | cons p pre2 =>
        rw [List.cons_append] at hsplit
        injection hsplit with h1 h2
        have hpx : (min_by_loss_aux x ys).2 < x.2 := by
          have hp2 := hpre p (List.mem_cons_self p pre2)
          rw [← h1] at hp2
          exact hp2
        refine ⟨x :: y :: pre2, post, ?_, ?_, ?_⟩
        · rw [List.cons_append, List.cons_append, ← h2]
        · intro z hz
          rcases List.mem_cons.mp hz with hz | hz
          · rw [hz]
            exact hpx
          · rcases List.mem_cons.mp hz with hz | hz
            · rw [hz]
              exact Nat.lt_of_lt_of_le hpx hxle
            · exact hpre z (List.mem_cons_of_mem p hz)
        · intro z hz
          rcases List.mem_cons.mp hz with hz | hz
          · rw [hz]
            exact Nat.le_of_lt hpx
          · rcases List.mem_cons.mp hz with hz | hz
            · rw [hz]
              exact Nat.le_of_lt (Nat.lt_of_lt_of_le hpx hxle)
            · exact hall z (List.mem_cons_of_mem x hz)

/-- Claim C6: for a non-empty candidate list whose candidates all
succeed, `BestPalette::convert_image_with_loss` returns the result of the
candidate with the minimal loss among all candidates run on the same
image and options, ties broken in favor of the earliest candidate: the
result list decomposes around the returned pair, every earlier
candidate's loss is strictly larger, and no candidate's loss is
smaller. -/
theorem best_palette_returns_first_minimum
    (cands : List (RgbImage → ColorOptions → Option (List Color × Nat)))
    (image : RgbImage) (options : ColorOptions) (results : List (List Color × Nat))
    (hne : cands ≠ []) (hall : convert_all cands image options = some results) :
    ∃ r pre post,
      BestPalette.convert_image_with_loss cands image options = some r
        ∧ results = pre ++ r :: post
        ∧ (∀ y ∈ pre, r.2 < y.2)
        ∧ (∀ y ∈ results, r.2 ≤ y.2) := by
  cases results with
  | nil =>
    exfalso
    cases cands with
    | nil => exact hne rfl
    | cons c cs =>
      unfold convert_all at hall
      cases hc : c image options with
      | none =>
        rw [hc, Option.none_bind] at hall
        exact Option.noConfusion hall
      | some res =>
        rw [hc, Option.some_bind] at hall
        cases hr : convert_all cs image options with
        | none =>
          rw [hr, Option.map_none'] at hall
          exact Option.noConfusion hall
        | some rest =>
          rw [hr, Option.map_some'] at hall
          exact List.noConfusion (Option.some.inj hall)
  | cons r0 rs =>
    obtain ⟨pre, post, hsplit, hpre, hmin⟩ := min_by_loss_aux_first rs r0
    refine ⟨min_by_loss_aux r0 rs, pre, post, ?_, hsplit, hpre, hmin⟩
    unfold BestPalette.convert_image_with_loss
    rw [hall, Option.some_bind]

/-- Witness for claim C6: three constant candidates with losses 5, 3, 3;
the second is returned. -/
theorem best_palette_returns_first_minimum_witness :
    ∃ r pre post,
      BestPalette.convert_image_with_loss
          [fun _ _ => some ([⟨1, 1, 1, 255⟩], 5), fun _ _ => some ([⟨2, 2, 2, 255⟩], 3),
            fun _ _ => some ([⟨3, 3, 3, 255⟩], 3)]
          ⟨1, [(0, 0, 0)]⟩ ⟨none, LossAlgorithm.L1⟩ = some r
        ∧ ([(([⟨1, 1, 1, 255⟩] : List Color), (5 : Nat)), ([⟨2, 2, 2, 255⟩], 3),
              ([⟨3, 3, 3, 255⟩], 3)] : List (List Color × Nat))
            = pre ++ r :: post
        ∧ (∀ y ∈ pre, r.2 < y.2)
        ∧ (∀ y ∈ ([(([⟨1, 1, 1, 255⟩] : List Color), (5 : Nat)), ([⟨2, 2, 2, 255⟩], 3),
              ([⟨3, 3, 3, 255⟩], 3)] : List (List Color × Nat)),
            r.2 ≤ y.2) :=
  best_palette_returns_first_minimum
    [fun _ _ => some ([⟨1, 1, 1, 255⟩], 5), fun _ _ => some ([⟨2, 2, 2, 255⟩], 3),
      fun _ _ => some ([⟨3, 3, 3, 255⟩], 3)]
    ⟨1, [(0, 0, 0)]⟩ ⟨none, LossAlgorithm.L1⟩
    [([⟨1, 1, 1, 255⟩], 5), ([⟨2, 2, 2, 255⟩], 3), ([⟨3, 3, 3, 255⟩], 3)]
    (List.cons_ne_nil _ _) rfl

/-- Shared tail of every `convert_image_with_loss` implementation: once a
converted buffer of the right length is at hand, the returned pair
carries that buffer and the zipped pixelwise distance sum. -/
theorem convert_tail_spec (alg : LossAlgorithm) (original cv p : List Color) (l : Nat)
    (hc : cv.length = original.length)
    (h : (alg.image_diff original cv).map (fun loss => (cv, loss)) = some (p, l)) :
    p.length = original.length
      ∧ l = ((original.zip p).map fun q => alg.color_diff q.1 q.2).sum := by
  rw [image_diff_of_length_eq alg original cv hc.symm, Option.map_some'] at h
  injection h with h1
  injection h1 with hp hl
  subst hp
  subst hl
  exact ⟨hc, rfl⟩

/-- Claim C8: for every strategy family — mapping color depths (any
per-pixel mapper), fixed palettes and back/fore palettes — a successful
conversion returns a buffer of the same length as the original together
with a loss equal to the sum, over all pixels, of the selected metric's
distance between the original pixel and the corresponding converted
pixel. -/
theorem convert_loss_is_sum_of_pixel_diffs (image : RgbImage) (opts : ColorOptions) :
    (∀ (m : Color → Color) (p : List Color) (l : Nat),
        MappingColorDepth.convert_image_with_loss m image opts = some (p, l) →
          p.length = image.toColors.length
            ∧ l = ((image.toColors.zip p).map fun q => opts.loss.color_diff q.1 q.2).sum)
      ∧ (∀ (palette : List (Nat × Nat × Nat)) (p : List Color) (l : Nat),
          FixedPalette.convert_image_with_loss palette image opts = some (p, l) →
            p.length = image.toColors.length
              ∧ l = ((image.toColors.zip p).map fun q => opts.loss.color_diff q.1 q.2).sum)
      ∧ (∀ (B F : List (Nat × Nat × Nat)) (p : List Color) (l : Nat),
          BackForePalette.convert_image_with_loss B F image opts = some (p, l) →
            p.length = image.toColors.length
              ∧ l = ((image.toColors.zip p).map fun q => opts.loss.color_diff q.1 q.2).sum) := by
  refine ⟨?_, ?_, ?_⟩
  · intro m p l h
    cases hnc : opts.num_colors with
    | none =>
      simp only [MappingColorDepth.convert_image_with_loss, hnc, Option.some_bind] at h
      exact convert_tail_spec opts.loss image.toColors _ p l (List.length_map _ _) h
    | some n =>
      simp only [MappingColorDepth.convert_image_with_loss, hnc, Option.some_bind] at h
      exact convert_tail_spec opts.loss image.toColors _ p l (by simp [remap]) h
  · intro palette p l h
    cases hnc : opts.num_colors with
    | none =>
      simp only [FixedPalette.convert_image_with_loss, hnc, Option.some_bind] at h
      exact convert_tail_spec opts.loss image.toColors _ p l rfl h
    | some n =>
      simp only [FixedPalette.convert_image_with_loss, hnc] at h
      cases hm : (build_palette image.toColors n).mapM (FixedPalette.convert_color palette) with
      | none =>
        rw [hm, Option.map_none', Option.none_bind] at h
        exact Option.noConfusion h
      | some reduced =>
        rw [hm, Option.map_some'] at h
        simp only [Option.some_bind] at h
        exact convert_tail_spec opts.loss image.toColors _ p l (by simp [remap]) h
  · intro B F p l h
    simp only [BackForePalette.convert_image_with_loss] at h
    cases hb : BackForePalette.background_color image with
    | none =>
      rw [hb, Option.none_bind] at h
      exact Option.noConfusion h
    | some bkg0 =>
      rw [hb] at h
      simp only [Option.some_bind] at h
      cases hs : BackForePalette.convert_color_back B bkg0 with
      | none =>
        rw [hs, Option.none_bind] at h
        exact Option.noConfusion h
      | some bkg =>
        rw [hs] at h
        simp only [Option.some_bind] at h
        cases hnc : opts.num_colors with
        | none =>
          simp only [hnc, Option.some_bind] at h
          exact convert_tail_spec opts.loss image.toColors _ p l rfl h
        | some n =>
          simp only [hnc] at h
          cases hm : (build_palette image.toColors n).mapM
              (FixedPalette.convert_color (F ++ [(bkg.r, bkg.g, bkg.b)])) with
          | none =>
            rw [hm, Option.map_none', Option.none_bind] at h
            exact Option.noConfusion h
          | some reduced =>
            rw [hm, Option.map_some'] at h
            simp only [Option.some_bind] at h
            exact convert_tail_spec opts.loss image.toColors _ p l (by simp [remap]) h

/-- Witness for claim C8: one-pixel images converted without a color cap
under each of the three strategy families. -/
theorem convert_loss_is_sum_of_pixel_diffs_witness :
    (([⟨5, 6, 7, 255⟩] : List Color).length = (RgbImage.toColors ⟨1, [(5, 6, 7)]⟩).length
        ∧ (0 : Nat) = (((RgbImage.toColors ⟨1, [(5, 6, 7)]⟩).zip [⟨5, 6, 7, 255⟩]).map
            fun q => LossAlgorithm.color_diff LossAlgorithm.L1 q.1 q.2).sum)
      ∧ (([⟨8, 9, 10, 255⟩] : List Color).length = (RgbImage.toColors ⟨1, [(8, 9, 10)]⟩).length
        ∧ (0 : Nat) = (((RgbImage.toColors ⟨1, [(8, 9, 10)]⟩).zip [⟨8, 9, 10, 255⟩]).map
            fun q => LossAlgorithm.color_diff LossAlgorithm.L1 q.1 q.2).sum)
      ∧ (([⟨1, 2, 3, 255⟩] : List Color).length = (RgbImage.toColors ⟨1, [(1, 2, 3)]⟩).length
        ∧ (0 : Nat) = (((RgbImage.toColors ⟨1, [(1, 2, 3)]⟩).zip [⟨1, 2, 3, 255⟩]).map
            fun q => LossAlgorithm.color_diff LossAlgorithm.L1 q.1 q.2).sum) :=
  ⟨(convert_loss_is_sum_of_pixel_diffs ⟨1, [(5, 6, 7)]⟩ ⟨none, LossAlgorithm.L1⟩).1
      (fun c => c) [⟨5, 6, 7, 255⟩] 0 (by decide),
    (convert_loss_is_sum_of_pixel_diffs ⟨1, [(8, 9, 10)]⟩ ⟨none, LossAlgorithm.L1⟩).2.1
      BW_1BIT [⟨8, 9, 10, 255⟩] 0 (by decide),
    (convert_loss_is_sum_of_pixel_diffs ⟨1, [(1, 2, 3)]⟩ ⟨none, LossAlgorithm.L1⟩).2.2
      [(0, 0, 0)] [(9, 9, 9)] [⟨1, 2, 3, 255⟩] 0 (by decide)⟩
